import Mathlib

/-!
Verification development for the StreamKo watch-progress subsystem.

The definitions below are a shallow embedding of the TypeScript source:

* `Json` models the JavaScript values flowing through the Strapi
  controller (`src/api/src/api/watch-progress/controllers/watch-progress.ts`)
  and the client player component.  JavaScript numbers are idealised as
  exact integers (`Int`) where the program only handles identifiers and
  whole-second counters, and as exact rationals (`Rat`) where fractional
  player-clock values occur; IEEE-754 rounding is out of scope.
* `normalizeRelationValue`, `hasRelation`, `isOwner`, `hasOwn` and the
  controller actions `create`, `update`, `findOne` embed the server
  controller.
* `sameIdentifier`, `getField`, `asString`, `asNumber`, `toEntityArray`,
  `extractRecordId` embed the client helpers of the player component.
* `saveDecision`, `performSave` and `SaveMachine` embed the client
  `saveProgress` state machine, split into its pure decision part, its
  write-through part (parameterised by the API outcomes) and its
  in-flight/queued-force-save flag logic.
* `onLoadedMetadata` and `shouldResume` embed the resume sequencer.
-/

namespace StreamKo

/-- JavaScript value as seen by the controller and the client helpers.
`undef` is the JavaScript `undefined` (for example a missing property read),
`jnull` is `null`.  Object fields are an association list keyed by property
name; each key occurs at most once in the values the program builds. -/
inductive Json where
  | undef : Json
  | jnull : Json
  | str : String → Json
  | num : Int → Json
  | bool : Bool → Json
  | arr : List Json → Json
  | obj : List (String × Json) → Json

/-- Property lookup in an object field list (first match). -/
def getProp : List (String × Json) → String → Option Json
  | [], _ => none
  | (k, v) :: rest, key => if k = key then some v else getProp rest key

/-- Size bound for values found by `getProp`, used for termination. -/
def getProp_sizeOf_lt : ∀ (fields : List (String × Json)) (key : String)
    (v : Json), getProp fields key = some v → sizeOf v < sizeOf fields
  | [], _, _, h => by simp [getProp] at h
  | (k, w) :: rest, key, v, h => by
      by_cases hk : k = key
      · simp [getProp, hk] at h
        subst h
        simp only [List.cons.sizeOf_spec, Prod.mk.sizeOf_spec]
        omega
      · simp [getProp, hk] at h
        have := getProp_sizeOf_lt rest key v h
        simp only [List.cons.sizeOf_spec]
        omega

/-- Size bound for elements of a list, used for termination. -/
def mem_sizeOf_lt : ∀ (l : List Json) (v : Json), v ∈ l → sizeOf v < sizeOf l
  | [], _, h => by simp at h
  | w :: rest, v, h => by
      rcases List.mem_cons.mp h with h1 | h2
      · subst h1; simp only [List.cons.sizeOf_spec]; omega
      · have := mem_sizeOf_lt rest v h2
        simp only [List.cons.sizeOf_spec]; omega

/-- Result of `normalizeRelationValue`: a scalar id, `null`, or `undefined`
(the TypeScript return type `string | number | null | undefined`). -/
inductive RelScalar where
  | undef : RelScalar
  | null : RelScalar
  | str : String → RelScalar
  | num : Int → RelScalar
deriving Repr, DecidableEq

/-- Embedding of `normalizeRelationValue` from the watch-progress
controller: reduce a relation payload of any accepted shape (bare id, bare
document id, array, connect/set/disconnect mutation wrapper, related
object) to a single scalar id, `null`, or `undefined`. -/
def normalizeRelationValue : Json → RelScalar
  | .undef => .undef
  | .jnull => .null
  | .str s => .str s
  | .num n => .num n
  | .bool _ => .undef
  | .arr [] => .null
  | .arr (v :: _) => normalizeRelationValue v
  | .obj fields =>
    match h1 : getProp fields "id" with
    | some v => normalizeRelationValue v
    | none =>
      match h2 : getProp fields "documentId" with
      | some v => normalizeRelationValue v
      | none =>
        match h3 : getProp fields "set" with
        | some (.arr (v :: _)) => normalizeRelationValue v
        | some _ => .null
        | none =>
          match h4 : getProp fields "connect" with
          | some (.arr (v :: _)) => normalizeRelationValue v
          | some v => normalizeRelationValue v
          | none =>
            match getProp fields "disconnect" with
            | some _ => .null
            | none => .undef
termination_by j => sizeOf j
decreasing_by
  · simp only [Json.arr.sizeOf_spec, List.cons.sizeOf_spec]; omega
  · have := getProp_sizeOf_lt fields "id" v h1
    simp only [Json.obj.sizeOf_spec]; omega
  · have := getProp_sizeOf_lt fields "documentId" v h2
    simp only [Json.obj.sizeOf_spec]; omega
  · have h5 := getProp_sizeOf_lt fields "set" _ h3
    simp only [Json.arr.sizeOf_spec, List.cons.sizeOf_spec] at h5
    simp only [Json.obj.sizeOf_spec]
    omega
  · have h5 := getProp_sizeOf_lt fields "connect" _ h4
    simp only [Json.arr.sizeOf_spec, List.cons.sizeOf_spec] at h5
    simp only [Json.obj.sizeOf_spec]
    omega
  · have := getProp_sizeOf_lt fields "connect" v h4
    simp only [Json.obj.sizeOf_spec]; omega

/-- Embedding of `hasRelation`: a normalized relation value counts as
present when it is neither `null`, nor `undefined`, nor the empty string. -/
def hasRelation : RelScalar → Bool
  | .null => false
  | .undef => false
  | .str s => s ≠ ""
  | .num _ => true

/-- JavaScript `String(x)` on the values `normalizeRelationValue` returns. -/
def relScalarToString : RelScalar → String
  | .undef => "undefined"
  | .null => "null"
  | .str s => s
  | .num n => toString n

/-- Embedding of `isOwner`: compares `String(ownerValue)` with
`String(userId)`.  User ids are modelled as integers. -/
def isOwner (ownerValue : RelScalar) (userId : Int) : Bool :=
  relScalarToString ownerValue = toString userId

/-- Embedding of `hasOwn` (`Object.prototype.hasOwnProperty.call(value ?? {}, key)`):
true only when the value is an object carrying the key as an own property.
Primitive values have no own properties by these names. -/
def hasOwn (value : Json) (key : String) : Bool :=
  match value with
  | .obj fields => (getProp fields key).isSome
  | _ => false

/-- JavaScript property read `value[key]`: `undefined` unless `value` is an
object with the key (array index and string index properties are never the
identifier-like keys this controller reads). -/
def jsGet (value : Json) (key : String) : Json :=
  match value with
  | .obj fields => Option.getD (getProp fields key) Json.undef
  | _ => Json.undef

/-- JavaScript nullish coalescing `value ?? d`. -/
def jsNullish (value d : Json) : Json :=
  match value with
  | .undef => d
  | .jnull => d
  | _ => value

/-- Fields contributed by an object spread `{...value}`.  Spreading a
non-object contributes no own enumerable properties under the
identifier-like keys this controller later reads (string/array spreads
contribute only numeric index keys), so they are modelled as none. -/
def spreadFields : Json → List (String × Json)
  | .obj fields => fields
  | _ => []

/-- Write a property into a field list, overriding an existing entry in
place or appending, as a spread-then-assign object literal does. -/
def upsert (fields : List (String × Json)) (key : String) (v : Json) :
    List (String × Json) :=
  match fields with
  | [] => [(key, v)]
  | (k, w) :: rest =>
    if k = key then (key, v) :: rest else (k, w) :: upsert rest key v

/-- Outcome of a controller action: either an error response or the
request is forwarded to the core controller (`super.create` and so on)
with the rewritten body. -/
inductive CtrlResult where
  | unauthorized : String → CtrlResult
  | notFound : String → CtrlResult
  | forbidden : String → CtrlResult
  | badRequest : String → CtrlResult
  | forwarded : Json → CtrlResult

/-- The kind of a payload value: `some s` exactly when the value is the
JavaScript string `s` (mirrors the `typeof kind === 'string'` guard). -/
def kindStr : Json → Option String
  | .str s => some s
  | _ => none

/-- Membership in `ALLOWED_KINDS`; `Set.has` is false on non-strings. -/
def allowedKind (kind : Option String) : Bool :=
  kind = some "movie" ∨ kind = some "episode"

/-- The request payload: `(ctx.request.body ?? {}).data ?? {}`. -/
def requestPayload (rawBody : Json) : Json :=
  jsNullish (jsGet (jsNullish rawBody (.obj [])) "data") (.obj [])

/-- The kind an update validates: the payload kind when it is a string,
else the existing record kind. -/
def nextKindOf (payload record : Json) : Option String :=
  match jsGet payload "kind" with
  | .str s => some s
  | _ => kindStr (jsGet record "kind")

/-- The movie relation an update validates: normalized from the payload
when the property is present on the payload object, else from the
existing record. -/
def nextMovieOf (payload record : Json) : RelScalar :=
  if hasOwn payload "movie" then normalizeRelationValue (jsGet payload "movie")
  else normalizeRelationValue (jsGet record "movie")

/-- The episode relation an update validates, merged the same way. -/
def nextEpisodeOf (payload record : Json) : RelScalar :=
  if hasOwn payload "episode" then normalizeRelationValue (jsGet payload "episode")
  else normalizeRelationValue (jsGet record "episode")

/-- The kind/relation mutual-exclusivity invariant in the words of the
specification: the kind is movie or episode, the relation matching the
kind is non-empty, and the other relation is empty. -/
def validKindRelations (kind : Option String) (movie episode : RelScalar) : Prop :=
  (kind = some "movie" ∧ hasRelation movie = true ∧ hasRelation episode = false) ∨
  (kind = some "episode" ∧ hasRelation episode = true ∧ hasRelation movie = false)

/-- Whether a controller result is a validation rejection. -/
def isBadRequest : CtrlResult → Bool
  | .badRequest _ => true
  | _ => false

/-- The kind/relation checks shared verbatim by the create and update
actions: reject unless the kind is allowed and exactly the matching
relation is present, else forward the rewritten body. -/
def validateKindRelations (kind : Option String) (movie episode : RelScalar)
    (fwd : Json) : CtrlResult :=
  if ¬ allowedKind kind then
    .badRequest "kind must be either \"movie\" or \"episode\""
  else if kind = some "movie" ∧ (¬ hasRelation movie ∨ hasRelation episode) then
    .badRequest "For kind \"movie\", movie must be set and episode must be empty"
  else if kind = some "episode" ∧ (¬ hasRelation episode ∨ hasRelation movie) then
    .badRequest "For kind \"episode\", episode must be set and movie must be empty"
  else
    .forwarded fwd

/-- Body rewrite shared by create and update:
`{...body, data: {...payload, user: userId}}`. -/
def withUserData (body payload : Json) (userId : Int) : Json :=
  Json.obj (upsert (spreadFields body)
    "data" (Json.obj (upsert (spreadFields payload) "user" (.num userId))))

/-- Embedding of the `create` controller action.  `userId` is
`ctx.state.user?.id` (none when unauthenticated), `rawBody` is
`ctx.request.body`. -/
def create (userId : Option Int) (rawBody : Json) : CtrlResult :=
  match userId with
  | none => .unauthorized "Authentication required"
  | some uid =>
    let body := jsNullish rawBody (.obj [])
    let payload := requestPayload rawBody
    validateKindRelations (kindStr (jsGet payload "kind"))
      (normalizeRelationValue (jsGet payload "movie"))
      (normalizeRelationValue (jsGet payload "episode"))
      (withUserData body payload uid)

/-- Embedding of the `update` controller action.  `existing` is the result
of the database lookup for the addressed record (none when absent), with
its `user`, `movie`, `episode` relations populated. -/
def update (userId : Option Int) (existing : Option Json) (rawBody : Json) :
    CtrlResult :=
  match userId with
  | none => .unauthorized "Authentication required"
  | some uid =>
    match existing with
    | none => .notFound "Watch progress not found"
    | some record =>
      if ¬ isOwner (normalizeRelationValue (jsGet record "user")) uid then
        .forbidden "You cannot update this watch progress"
      else
        let body := jsNullish rawBody (.obj [])
        let payload := requestPayload rawBody
        validateKindRelations (nextKindOf payload record)
          (nextMovieOf payload record) (nextEpisodeOf payload record)
          (withUserData body payload uid)

/-- Embedding of the `findOne` controller action.  `.forwarded` means the
request reaches `super.findOne`, which returns the addressed record. -/
def findOne (userId : Option Int) (existing : Option Json) : CtrlResult :=
  match userId with
  | none => .unauthorized "Authentication required"
  | some uid =>
    match existing with
    | none => .notFound "Watch progress not found"
    | some record =>
      if ¬ isOwner (normalizeRelationValue (jsGet record "user")) uid then
        .forbidden "You cannot access this watch progress"
      else
        .forwarded record

/-- Whitespace trim on character lists (JavaScript `String.prototype.trim`). -/
def trimChars (cs : List Char) : List Char :=
  ((cs.dropWhile Char.isWhitespace).reverse.dropWhile Char.isWhitespace).reverse

/-- Decimal digit string to natural number. -/
def digitsToNat (ds : List Char) : Nat :=
  ds.foldl (fun a c => a * 10 + (c.toNat - 48)) 0

/-- Digit value in a radix, for the `0x`/`0o`/`0b` literal forms. -/
def radixDigitVal (radix : Nat) (c : Char) : Option Nat :=
  let v :=
    if c.isDigit then some (c.toNat - 48)
    else if 'a' ≤ c ∧ c ≤ 'f' then some (c.toNat - 87)
    else if 'A' ≤ c ∧ c ≤ 'F' then some (c.toNat - 55)
    else none
  match v with
  | some d => if d < radix then some d else none
  | none => none

/-- Parse a nonempty all-digit string in the given radix. -/
def parseRadixDigits (radix : Nat) : List Char → Option Nat
  | [] => none
  | cs => cs.foldlM
      (fun acc c => (radixDigitVal radix c).map (fun d => acc * radix + d)) 0

/-- Parse the optional exponent tail of a decimal literal, returning the
exponent (`some 0` for an empty tail, `none` on a malformed tail). -/
def parseExpPart : List Char → Option Int
  | [] => some 0
  | c :: rest =>
    if c = 'e' ∨ c = 'E' then
      match rest with
      | '+' :: ds =>
        if ds ≠ [] ∧ ds.all Char.isDigit then some (digitsToNat ds) else none
      | '-' :: ds =>
        if ds ≠ [] ∧ ds.all Char.isDigit then some (-(digitsToNat ds : Int)) else none
      | ds =>
        if ds ≠ [] ∧ ds.all Char.isDigit then some (digitsToNat ds) else none
    else none

/-- Parse an unsigned decimal literal `Digits ['.' Digits] [Exp]` or
`'.' Digits [Exp]`, as a mantissa/exponent pair denoting `m * 10 ^ e`. -/
def parseUnsignedDecParts (cs : List Char) : Option (Int × Int) :=
  let ip := cs.takeWhile Char.isDigit
  let r1 := cs.dropWhile Char.isDigit
  match r1 with
  | '.' :: r2 =>
    let fp := r2.takeWhile Char.isDigit
    let r3 := r2.dropWhile Char.isDigit
    if ip = [] ∧ fp = [] then none
    else
      match parseExpPart r3 with
      | some e =>
        some ((digitsToNat ip * 10 ^ fp.length + digitsToNat fp : Int),
          e - fp.length)
      | none => none
  | _ =>
    if ip = [] then none
    else
      match parseExpPart r1 with
      | some e => some ((digitsToNat ip : Int), e)
      | none => none

/-- Parse an optionally signed decimal literal; `Infinity` is excluded
because it is not a finite result. -/
def parseSignedDecParts (cs : List Char) : Option (Int × Int) :=
  match cs with
  | '+' :: rest =>
    if rest = "Infinity".data then none else parseUnsignedDecParts rest
  | '-' :: rest =>
    if rest = "Infinity".data then none
    else (parseUnsignedDecParts rest).map (fun p => (-p.1, p.2))
  | _ => if cs = "Infinity".data then none else parseUnsignedDecParts cs

/-- String-processing part of JavaScript `Number(s)`: the finite results
as mantissa/exponent pairs denoting `m * 10 ^ e`, `none` for NaN and the
infinities. -/
def jsToNumberParts (s : String) : Option (Int × Int) :=
  let cs := trimChars s.data
  match cs with
  | [] => some (0, 0)
  | '0' :: c :: rest =>
    if c = 'x' ∨ c = 'X' then (parseRadixDigits 16 rest).map (fun n => ((n : Int), 0))
    else if c = 'o' ∨ c = 'O' then (parseRadixDigits 8 rest).map (fun n => ((n : Int), 0))
    else if c = 'b' ∨ c = 'B' then (parseRadixDigits 2 rest).map (fun n => ((n : Int), 0))
    else parseSignedDecParts cs
  | _ => parseSignedDecParts cs

/-- The exact rational denoted by a mantissa/exponent pair. -/
def ratOfParts (p : Int × Int) : ℚ :=
  (p.1 : ℚ) * (10 : ℚ) ^ p.2

/-- JavaScript `Number(s)` on strings, restricted to finite results:
`some q` exactly when the conversion yields a finite number of exact value
`q` (idealised as a rational; IEEE-754 rounding is out of scope), `none`
when it yields NaN or an infinity. -/
def jsToNumberFin (s : String) : Option ℚ :=
  (jsToNumberParts s).map ratOfParts

/-- Embedding of `asNumber` from the player component: finite numbers pass
through, nonblank strings go through `Number(...)` keeping only finite
results, everything else is null. -/
def asNumber : Json → Option ℚ
  | .num n => some (n : ℚ)
  | .str s => if trimChars s.data = [] then none else jsToNumberFin s
  | _ => none

/-- Embedding of `asString`: strings pass through, numbers are rendered,
everything else is the empty string. -/
def asString : Json → String
  | .str s => s
  | .num n => toString n
  | _ => ""

/-- Embedding of `getField`: read a key at the top level of an entity,
falling back to its `attributes` sub-object. -/
def getField (entity : List (String × Json)) (key : String) : Json :=
  match getProp entity key with
  | some v => v
  | none =>
    match getProp entity "attributes" with
    | some (.obj attrs) => Option.getD (getProp attrs key) Json.undef
    | _ => Json.undef

/-- Embedding of `toEntityArray`: unwrap a response into the list of
record-shaped entries under its top-level `data` key. -/
def toEntityArray (response : Json) : List (List (String × Json)) :=
  match response with
  | .obj fields =>
    match getProp fields "data" with
    | some (.arr entries) =>
      entries.filterMap (fun e =>
        match e with
        | .obj f => some f
        | _ => none)
    | some (.obj f) => [f]
    | _ => []
  | _ => []

/-- JavaScript `String(q)` for the numbers `asNumber` can produce.
Integer values match JavaScript exactly; non-integer formatting is not
exercised by the identifiers in this system. -/
def qToJsString (q : ℚ) : String :=
  if q.den = 1 then toString q.num else toString q

/-- Embedding of `extractRecordId`: prefer the numeric id rendered as a
string, then the string id, then the document id. -/
def extractRecordId (entity : List (String × Json)) : Option String :=
  match asNumber (getField entity "id") with
  | some q => some (qToJsString q)
  | none =>
    let s := asString (getField entity "id")
    if s ≠ "" then some s
    else
      let d := asString (getField entity "documentId")
      if d ≠ "" then some d else none

/-- Embedding of `sameIdentifier` from the player component: empty strings
never match; otherwise string equality, or both sides converting to equal
finite numbers. -/
def sameIdentifier (left right : String) : Bool :=
  if left = "" ∨ right = "" then false
  else if left = right then true
  else
    match jsToNumberFin left, jsToNumberFin right with
    | some a, some b => a = b
    | _, _ => false

/-- A media relation identifier (`relationId: string | number`). -/
inductive RelId where
  | str : String → RelId
  | num : Int → RelId
deriving Repr, DecidableEq

/-- Live video element state as read by the player component.  `duration`
is `some d` exactly when `Number.isFinite(video.duration)` holds, with the
finite value `d`; `none` models NaN and the infinities. -/
structure Video where
  currentTime : ℚ
  duration : Option ℚ
  paused : Bool

/-- Ambient inputs of one `saveProgress` invocation. -/
structure SaveCtx where
  token : Option String
  media : Option RelId
  kindIsMovie : Bool
  video : Option Video
  now : Int

/-- The local progress state read by the save policy. -/
structure SaveState where
  progressPosition : Int
  durationSeconds : Option Int
  progressRecordId : Option String
  lastSavedAt : Int
  lastSavedPosition : Int
  saveInFlight : Bool

/-- Resolved `positionSeconds`: live player clock if attached, else the
last known local value. -/
def resolvedPosition (ctx : SaveCtx) (st : SaveState) : Int :=
  match ctx.video with
  | some v => max 0 ⌊v.currentTime⌋
  | none => st.progressPosition

/-- Resolved `durationSeconds`: the live player duration when finite and
positive, else the prior value. -/
def resolvedDuration (ctx : SaveCtx) (st : SaveState) : Option Int :=
  match ctx.video with
  | some v =>
    match v.duration with
    | some d => if 0 < d then some ⌊d⌋ else st.durationSeconds
    | none => st.durationSeconds
  | none => st.durationSeconds

/-- `completedByRatio`: the resolved duration is present and positive and
the resolved position is at least 95 percent of it. -/
def completedByRatio (ctx : SaveCtx) (st : SaveState) : Bool :=
  match resolvedDuration ctx st with
  | some d =>
    decide (0 < d) && decide ((0.95 : ℚ) ≤ (resolvedPosition ctx st : ℚ) / (d : ℚ))
  | none => false

/-- Final `completed` flag: `completedOverride ?? completedByRatio`. -/
def completedFlag (ctx : SaveCtx) (st : SaveState)
    (completedOverride : Option Bool) : Bool :=
  completedOverride.getD (completedByRatio ctx st)

/-- Payload written through to the record store by the movie player. -/
structure SavePayload where
  kind : String
  movie : Option RelId
  episode : Option RelId
  positionSeconds : Int
  durationSeconds : Option Int
  completed : Bool
deriving Repr, DecidableEq

/-- What one `saveProgress` invocation decides to do before any network
write: return early, collapse into the queued-force-save flag, be dropped
because a save is in flight, or proceed to the write with a payload. -/
inductive SaveAction where
  | skip : SaveAction
  | queueForce : SaveAction
  | dropped : SaveAction
  | write : SavePayload → SaveAction
deriving Repr, DecidableEq

/-- Embedding of the decision part of `saveProgress(force, completedOverride)`
from the player component, up to and including the in-flight check. -/
def saveDecision (force : Bool) (completedOverride : Option Bool)
    (ctx : SaveCtx) (st : SaveState) : SaveAction :=
  match ctx.token, ctx.media with
  | some _, some relId =>
    if ¬ ctx.kindIsMovie then .skip
    else
      let pos := resolvedPosition ctx st
      let completed := completedFlag ctx st completedOverride
      if force = false ∧ (ctx.video.elim true Video.paused) = true then .skip
      else if force = false ∧ completed = false ∧ pos < 5 ∧
          st.progressRecordId = none then .skip
      else if force = false ∧ completed = false ∧
          ((pos - st.lastSavedPosition).natAbs < 5 ∨
            ctx.now - st.lastSavedAt < 7500) then .skip
      else if completed = false ∧ pos ≤ 0 ∧ st.progressRecordId = none then .skip
      else if st.saveInFlight then
        (if force then .queueForce else .dropped)
      else
        .write ⟨"movie", some relId, none, pos, resolvedDuration ctx st, completed⟩
  | _, _ => .skip

/-- Outcome of the remote update call, as observed by the client:
success, a structured `StrapiRequestError` with a status, or any other
thrown error. -/
inductive UpdateOutcome where
  | ok : UpdateOutcome
  | strapiErr : Int → String → UpdateOutcome
  | unexpectedErr : UpdateOutcome

/-- Outcome of the remote create call, with the response body on success. -/
inductive CreateOutcome where
  | ok : Json → CreateOutcome
  | strapiErr : Int → String → CreateOutcome
  | unexpectedErr : CreateOutcome

/-- Observable result of the write-through phase: the update and create
calls issued, the cached record id afterwards, the save-failure message
shown (if any), and whether the success commit ran. -/
structure WriteResult where
  updateCalls : List (String × SavePayload)
  createCalls : List SavePayload
  recordId : Option String
  errorMsg : Option String
  committed : Bool

/-- The create branch of the write-through phase: issue one create call
and cache the id extracted from the response entity when present. -/
def performCreate (priorUpdates : List (String × SavePayload))
    (payload : SavePayload) (cre : CreateOutcome) : WriteResult :=
  match cre with
  | .ok response =>
    ⟨priorUpdates, [payload],
      ((toEntityArray response).head?).bind extractRecordId, none, true⟩
  | .strapiErr status msg =>
    ⟨priorUpdates, [payload], none,
      some ("Progress save failed (" ++ toString status ++ "): " ++ msg), false⟩
  | .unexpectedErr =>
    ⟨priorUpdates, [payload], none,
      some "Progress save failed due to an unexpected error.", false⟩

/-- Embedding of the write-through phase of `saveProgress`: with a cached
record id attempt the update first; a 404 clears the cached id and falls
through to exactly one create; any other update failure is rethrown and
surfaced without reaching create. -/
def performSave (recId : Option String) (payload : SavePayload)
    (upd : UpdateOutcome) (cre : CreateOutcome) : WriteResult :=
  match recId with
  | some rid =>
    match upd with
    | .ok => ⟨[(rid, payload)], [], some rid, none, true⟩
    | .strapiErr status msg =>
      if status = 404 then performCreate [(rid, payload)] payload cre
      else
        ⟨[(rid, payload)], [], some rid,
          some ("Progress save failed (" ++ toString status ++ "): " ++ msg), false⟩
    | .unexpectedErr =>
      ⟨[(rid, payload)], [], some rid,
        some "Progress save failed due to an unexpected error.", false⟩
  | none => performCreate [] payload cre

/-- The in-flight/queued-force-save coordination flags of `saveProgress`,
with a counter of save executions that actually started a write. -/
structure SaveMachine where
  inFlight : Bool
  queued : Bool
  executed : Nat
deriving Repr, DecidableEq

/-- A save request that has passed the policy gates reaches the in-flight
check: while a save is in flight a forced request only sets the single
queued flag and a non-forced request is dropped; otherwise the save starts
executing. -/
def requestSave (force : Bool) (m : SaveMachine) : SaveMachine :=
  if m.inFlight then
    if force then { m with queued := true } else m
  else
    { m with inFlight := true, executed := m.executed + 1 }

/-- The `finally` block of `saveProgress`: clear the in-flight flag, then
re-invoke a single forced save if one was queued. -/
def settleSave (m : SaveMachine) : SaveMachine :=
  let m1 : SaveMachine := { m with inFlight := false }
  if m1.queued then requestSave true { m1 with queued := false } else m1

/-- Local state read by the resume sequencer. -/
structure ResumeState where
  progressPosition : Int
  progressCompleted : Bool
  durationSeconds : Option Int
  resumeApplied : Bool

/-- Embedding of the `shouldResume` computed property: not completed and
stored position strictly above 30 seconds. -/
def shouldResume (st : ResumeState) : Bool :=
  !st.progressCompleted && decide (30 < st.progressPosition)

/-- Observable result of `onLoadedMetadata`: the updated local state, the
value written to the player clock when a seek happened, and whether
autoplay was attempted. -/
structure MetaResult where
  state : ResumeState
  seekedTo : Option Int
  autoplayAttempted : Bool

/-- Embedding of `onLoadedMetadata` from the player component: capture a
finite positive duration, then, unless resume was already applied or is
not eligible, seek to the stored position capped at one second before the
end and attempt autoplay. -/
def onLoadedMetadata (video : Option Video) (st : ResumeState) : MetaResult :=
  match video with
  | none => ⟨st, none, false⟩
  | some v =>
    let st1 :=
      match v.duration with
      | some d => if 0 < d then { st with durationSeconds := some ⌊d⌋ } else st
      | none => st
    if st1.resumeApplied || !shouldResume st1 then ⟨st1, none, false⟩
    else
      let maxSeek : Option Int :=
        match v.duration with
        | some d => if 1 < d then some ⌊d - 1⌋ else none
        | none => none
      let seekTo :=
        match maxSeek with
        | some m => min st1.progressPosition m
        | none => st1.progressPosition
      ⟨{ st1 with resumeApplied := true },
        if 0 < seekTo then some seekTo else none, true⟩

/-! ## Theorems -/

theorem getProp_upsert (fields : List (String × Json)) (key : String) (v : Json) :
    getProp (upsert fields key v) key = some v := by
  induction fields with
  | nil => simp [upsert, getProp]
  | cons head rest ih =>
    obtain ⟨k, w⟩ := head
    by_cases hk : k = key <;> simp [upsert, getProp, hk, ih]

theorem withUserData_user (body payload : Json) (uid : Int) :
    jsGet (jsGet (withUserData body payload uid) "data") "user" = .num uid := by
  simp [withUserData, jsGet, getProp_upsert]

theorem validateKindRelations_forwarded (k : Option String) (m e : RelScalar)
    (fwd fb : Json) (h : validateKindRelations k m e fwd = .forwarded fb) :
    fb = fwd := by
  unfold validateKindRelations at h
  split_ifs at h <;> simp_all

/-- C6: while a save is in flight, a forced save request only sets the
single queued-force-save flag (redundant forced requests collapse into one
pending flag) and a non-forced request is dropped; when the in-flight save
settles, the queued flag triggers exactly one re-invoked forced save, so
two forced saves issued while one is in flight result in exactly one
additional save executing afterwards, not two. -/
theorem C6_queued_force_save_collapses (m : SaveMachine) (h : m.inFlight = true) :
    requestSave false m = m ∧
    (requestSave true m).queued = true ∧
    requestSave true (requestSave true m) = requestSave true m ∧
    (settleSave (requestSave true (requestSave true m))).executed = m.executed + 1 ∧
    (settleSave (settleSave (requestSave true (requestSave true m)))).executed =
      m.executed + 1 := by
  simp [requestSave, settleSave, h]

/-- C6 witness: one save in flight, two forced requests, then both
settlements; exactly one additional execution. -/
theorem C6_witness :
    requestSave false ⟨true, false, 1⟩ = ⟨true, false, 1⟩ ∧
    (requestSave true ⟨true, false, 1⟩).queued = true ∧
    requestSave true (requestSave true ⟨true, false, 1⟩) =
      requestSave true ⟨true, false, 1⟩ ∧
    (settleSave (requestSave true (requestSave true ⟨true, false, 1⟩))).executed = 2 ∧
    (settleSave (settleSave (requestSave true (requestSave true ⟨true, false, 1⟩)))).executed = 2 :=
  C6_queued_force_save_collapses ⟨true, false, 1⟩ rfl

/-- C7: an unauthenticated get-one yields an authentication error; with an
authenticated caller, a missing record yields NotFound, an existing record
with a different owner yields Forbidden, and the record is returned
exactly when it exists and is owned by the caller. -/
theorem C7_findOne_ownership (uid : Int) (existing : Option Json) :
    findOne none existing = .unauthorized "Authentication required" ∧
    findOne (some uid) none = .notFound "Watch progress not found" ∧
    (∀ record, existing = some record →
      isOwner (normalizeRelationValue (jsGet record "user")) uid = false →
      findOne (some uid) existing = .forbidden "You cannot access this watch progress") ∧
    (∀ record, findOne (some uid) existing = .forwarded record ↔
      existing = some record ∧
        isOwner (normalizeRelationValue (jsGet record "user")) uid = true) := by
  refine ⟨rfl, rfl, ?_, ?_⟩
  · intro record hex hown
    subst hex
    simp [findOne, hown]
  · intro record
    cases existing with
    | none => simp [findOne]
    | some r =>
      by_cases hown : isOwner (normalizeRelationValue (jsGet r "user")) uid = true
      · simp [findOne, hown]
        intro h
        subst h
        exact hown
      · simp [findOne, Bool.not_eq_true] at hown ⊢
        simp [hown]
        intro h
        rw [h] at hown
        simp [hown]

/-- C7 witness: caller 1 gets Forbidden on a record owned by user 2 and
NotFound on a missing id; caller 2 gets the record; no session gets an
authentication error. -/
theorem C7_witness :
    findOne none (some (Json.obj [("user", .obj [("id", Json.num 2)])])) =
      .unauthorized "Authentication required" ∧
    findOne (some 1) none = .notFound "Watch progress not found" ∧
    findOne (some 1) (some (Json.obj [("user", .obj [("id", Json.num 2)])])) =
      .forbidden "You cannot access this watch progress" ∧
    findOne (some 2) (some (Json.obj [("user", .obj [("id", Json.num 2)])])) =
      .forwarded (Json.obj [("user", .obj [("id", Json.num 2)])]) := by
  have hnorm : normalizeRelationValue
      (jsGet (Json.obj [("user", .obj [("id", Json.num 2)])]) "user") = .num 2 := by
    simp [jsGet, getProp, normalizeRelationValue]
  obtain ⟨h1, h2, h3, _⟩ :=
    C7_findOne_ownership 1 (some (Json.obj [("user", .obj [("id", Json.num 2)])]))
  refine ⟨h1, h2, h3 _ rfl (by rw [hnorm]; decide), ?_⟩
  exact ((C7_findOne_ownership 2
    (some (Json.obj [("user", .obj [("id", Json.num 2)])]))).2.2.2 _).mpr
    ⟨rfl, by rw [hnorm]; decide⟩

/-- C2: whenever an authenticated create or update request is forwarded to
the record store, the user field of the forwarded data equals the
authenticated session user id, regardless of anything the client put in
the request body. -/
theorem C2_owner_from_session (uid : Int) (rawBody fb : Json)
    (h : create (some uid) rawBody = .forwarded fb ∨
      (∃ existing, update (some uid) existing rawBody = .forwarded fb)) :
    jsGet (jsGet fb "data") "user" = .num uid := by
  rcases h with h | ⟨existing, h⟩
  · simp only [create] at h
    rw [validateKindRelations_forwarded _ _ _ _ _ h]
    exact withUserData_user _ _ uid
  · cases existing with
    | none => simp [update] at h
    | some record =>
      simp only [update] at h
      split at h
      · simp at h
      · rw [validateKindRelations_forwarded _ _ _ _ _ h]
        exact withUserData_user _ _ uid

/-- C2 witness: two create requests differing only in the client-supplied
user value both forward user = 1, the session user id. -/
theorem C2_witness :
    create (some 1) (.obj [("data", .obj [("kind", .str "movie"), ("movie", .num 7),
        ("user", .num 999)])]) =
      .forwarded (.obj [("data", .obj [("kind", .str "movie"), ("movie", .num 7),
        ("user", .num 1)])]) ∧
    create (some 1) (.obj [("data", .obj [("kind", .str "movie"), ("movie", .num 7),
        ("user", .num 555)])]) =
      .forwarded (.obj [("data", .obj [("kind", .str "movie"), ("movie", .num 7),
        ("user", .num 1)])]) ∧
    jsGet (jsGet (Json.obj [("data", .obj [("kind", .str "movie"), ("movie", .num 7),
      ("user", .num 1)])]) "data") "user" = .num 1 := by
  have hm : normalizeRelationValue (Json.num 7) = .num 7 := by
    simp [normalizeRelationValue]
  have h999 : create (some 1) (.obj [("data", .obj [("kind", .str "movie"),
      ("movie", .num 7), ("user", .num 999)])]) =
      .forwarded (.obj [("data", .obj [("kind", .str "movie"), ("movie", .num 7),
        ("user", .num 1)])]) := by
    simp [create, requestPayload, jsNullish, jsGet, getProp, kindStr, allowedKind,
      hm, show normalizeRelationValue Json.undef = .undef from by simp [normalizeRelationValue], hasRelation,
      withUserData, spreadFields, upsert, validateKindRelations]
  have h555 : create (some 1) (.obj [("data", .obj [("kind", .str "movie"),
      ("movie", .num 7), ("user", .num 555)])]) =
      .forwarded (.obj [("data", .obj [("kind", .str "movie"), ("movie", .num 7),
        ("user", .num 1)])]) := by
    simp [create, requestPayload, jsNullish, jsGet, getProp, kindStr, allowedKind,
      hm, show normalizeRelationValue Json.undef = .undef from by simp [normalizeRelationValue], hasRelation,
      withUserData, spreadFields, upsert, validateKindRelations]
  exact ⟨h999, h555, C2_owner_from_session 1 _ _ (Or.inl h999)⟩


/-- C5 counterexample: two empty strings are equal as strings, yet
`sameIdentifier` returns false, refuting the stated if-and-only-if at the
concrete input `("", "")`. -/
theorem C5_counterexample :
    ("" : String) = "" ∧ sameIdentifier "" "" = false :=
  ⟨rfl, by simp [sameIdentifier]⟩

/-- C5 amended: `sameIdentifier` is symmetric, and for nonempty arguments
it returns true exactly when the two strings are equal or both convert to
equal finite numbers; two empty strings never match. -/
theorem C5_sameIdentifier_symm_iff (a b : String) :
    sameIdentifier a b = sameIdentifier b a ∧
    (a ≠ "" → b ≠ "" →
      (sameIdentifier a b = true ↔
        (a = b ∨ ∃ qa qb, jsToNumberFin a = some qa ∧ jsToNumberFin b = some qb ∧
          qa = qb))) := by
  constructor
  · unfold sameIdentifier
    by_cases ha : a = "" <;> by_cases hb : b = "" <;> simp [ha, hb]
    by_cases hab : a = b
    · simp [hab]
    · simp [hab, Ne.symm hab]
      cases jsToNumberFin a <;> cases jsToNumberFin b <;> simp [eq_comm]
  · intro ha hb
    unfold sameIdentifier
    simp [ha, hb]
    by_cases hab : a = b
    · simp [hab]
    · simp [hab]
      cases hA : jsToNumberFin a <;> cases hB : jsToNumberFin b <;> simp [eq_comm]

/-- C5 witness: symmetry and the numeric-parse match at ("7", "07"),
string/number match at ("7", 7), and a non-match at ("abc", "abc2"). -/
theorem C5_witness :
    sameIdentifier "7" "07" = sameIdentifier "07" "7" ∧
    sameIdentifier "7" "07" = true ∧
    sameIdentifier "7" (asString (.num 7)) = true ∧
    sameIdentifier "abc" "abc2" = false := by
  refine ⟨(C5_sameIdentifier_symm_iff "7" "07").1,
    ((C5_sameIdentifier_symm_iff "7" "07").2 (by decide) (by decide)).mpr
      (Or.inr ⟨ratOfParts (7, 0), ratOfParts (7, 0), ?_, ?_, rfl⟩),
    by decide, by decide⟩
  · simp [jsToNumberFin, show jsToNumberParts "7" = some (7, 0) from by decide]
  · simp [jsToNumberFin, show jsToNumberParts "07" = some (7, 0) from by decide]


theorem validKindRelations_allowed (k : Option String) (m e : RelScalar)
    (h : validKindRelations k m e) : allowedKind k = true := by
  rcases h with ⟨h1, _, _⟩ | ⟨h1, _, _⟩ <;> simp [allowedKind, h1]

theorem validation_iff (k : Option String) (m e : RelScalar) :
    (¬ (allowedKind k = true) ∨
     (k = some "movie" ∧ (¬ hasRelation m = true ∨ hasRelation e = true)) ∨
     (k = some "episode" ∧ (¬ hasRelation e = true ∨ hasRelation m = true))) ↔
    ¬ validKindRelations k m e := by
  unfold allowedKind validKindRelations
  cases hm : hasRelation m <;> cases he : hasRelation e <;>
    by_cases h1 : k = some "movie" <;> by_cases h2 : k = some "episode" <;>
      simp_all

theorem validateKindRelations_spec (k : Option String) (m e : RelScalar)
    (fwd : Json) :
    (isBadRequest (validateKindRelations k m e fwd) = true ↔
      ¬ validKindRelations k m e) ∧
    (validKindRelations k m e → validateKindRelations k m e fwd = .forwarded fwd) := by
  constructor
  · cases hm : hasRelation m <;> cases he : hasRelation e <;>
      by_cases h1 : k = some "movie" <;> by_cases h2 : k = some "episode" <;>
        simp_all [validateKindRelations, isBadRequest, allowedKind,
          validKindRelations]
  · intro hv
    have hall := validKindRelations_allowed _ _ _ hv
    rcases hv with ⟨hk, hm, he⟩ | ⟨hk, hm, he⟩ <;>
      simp [validateKindRelations, hall, hk, hm, he, allowedKind]

/-- C3: an authenticated create, and an authenticated update of an owned
existing record, are rejected with a validation error exactly when the
validated kind/relation combination violates the invariant (kind exactly
movie or episode, the relation matching the kind non-empty after
normalization to a scalar-or-null, the other relation empty); when the
invariant holds the request passes validation and is forwarded. -/
theorem C3_kind_relation_validation (uid : Int) (rawBody record : Json) :
    ((isBadRequest (create (some uid) rawBody) = true ↔
      ¬ validKindRelations (kindStr (jsGet (requestPayload rawBody) "kind"))
        (normalizeRelationValue (jsGet (requestPayload rawBody) "movie"))
        (normalizeRelationValue (jsGet (requestPayload rawBody) "episode"))) ∧
     (validKindRelations (kindStr (jsGet (requestPayload rawBody) "kind"))
        (normalizeRelationValue (jsGet (requestPayload rawBody) "movie"))
        (normalizeRelationValue (jsGet (requestPayload rawBody) "episode")) →
      create (some uid) rawBody =
        .forwarded (withUserData (jsNullish rawBody (.obj []))
          (requestPayload rawBody) uid))) ∧
    (isOwner (normalizeRelationValue (jsGet record "user")) uid = true →
     ((isBadRequest (update (some uid) (some record) rawBody) = true ↔
        ¬ validKindRelations (nextKindOf (requestPayload rawBody) record)
          (nextMovieOf (requestPayload rawBody) record)
          (nextEpisodeOf (requestPayload rawBody) record)) ∧
      (validKindRelations (nextKindOf (requestPayload rawBody) record)
          (nextMovieOf (requestPayload rawBody) record)
          (nextEpisodeOf (requestPayload rawBody) record) →
        update (some uid) (some record) rawBody =
          .forwarded (withUserData (jsNullish rawBody (.obj []))
            (requestPayload rawBody) uid)))) := by
  refine ⟨⟨(validateKindRelations_spec _ _ _ _).1,
    (validateKindRelations_spec _ _ _ _).2⟩, fun hown => ?_⟩
  have hred : update (some uid) (some record) rawBody =
      validateKindRelations (nextKindOf (requestPayload rawBody) record)
        (nextMovieOf (requestPayload rawBody) record)
        (nextEpisodeOf (requestPayload rawBody) record)
        (withUserData (jsNullish rawBody (.obj [])) (requestPayload rawBody) uid) := by
    simp [update, hown]
  rw [hred]
  exact ⟨(validateKindRelations_spec _ _ _ _).1,
    (validateKindRelations_spec _ _ _ _).2⟩

/-- C3 witness: create with kind movie and both relations set is rejected;
create with kind movie, movie set, episode null passes validation and is
forwarded. -/
theorem C3_witness :
    isBadRequest (create (some 1) (.obj [("data", .obj [("kind", .str "movie"),
      ("movie", .num 7), ("episode", .num 5)])])) = true ∧
    create (some 1) (.obj [("data", .obj [("kind", .str "movie"),
      ("movie", .num 7), ("episode", .jnull)])]) =
      .forwarded (.obj [("data", .obj [("kind", .str "movie"), ("movie", .num 7),
        ("episode", .jnull), ("user", .num 1)])]) := by
  constructor
  · exact (C3_kind_relation_validation 1 (.obj [("data", .obj [("kind", .str "movie"),
      ("movie", .num 7), ("episode", .num 5)])]) (.obj [])).1.1.mpr (by
      simp [validKindRelations, requestPayload, jsNullish, jsGet, getProp, kindStr,
        normalizeRelationValue, hasRelation])
  · have h := (C3_kind_relation_validation 1 (.obj [("data", .obj [("kind", .str "movie"),
      ("movie", .num 7), ("episode", .jnull)])]) (.obj [])).1.2 (by
      apply Or.inl
      refine ⟨?_, ?_, ?_⟩ <;>
        simp [requestPayload, jsNullish, jsGet, getProp, kindStr,
          normalizeRelationValue, hasRelation])
    simpa [requestPayload, jsNullish, jsGet, getProp, withUserData, spreadFields,
      upsert] using h

theorem jsGet_undef_of_not_hasOwn (p : Json) (k : String)
    (h : hasOwn p k = false) : jsGet p k = .undef := by
  cases p <;> try rfl
  case obj fields =>
    cases hp : getProp fields k with
    | none => simp [jsGet, hp]
    | some v => simp [hasOwn, hp] at h

/-- C10: on an authenticated update of an owned record, kind, movie and
episode values omitted from the payload are taken from the existing
record, and the mutual-exclusivity validation runs on the merged state, so
a partial update without those keys on a record satisfying the invariant
is forwarded rather than rejected. -/
theorem C10_partial_update_merge (uid : Int) (record rawBody : Json)
    (hown : isOwner (normalizeRelationValue (jsGet record "user")) uid = true) :
    (hasOwn (requestPayload rawBody) "kind" = false →
      nextKindOf (requestPayload rawBody) record = kindStr (jsGet record "kind")) ∧
    (hasOwn (requestPayload rawBody) "movie" = false →
      nextMovieOf (requestPayload rawBody) record =
        normalizeRelationValue (jsGet record "movie")) ∧
    (hasOwn (requestPayload rawBody) "episode" = false →
      nextEpisodeOf (requestPayload rawBody) record =
        normalizeRelationValue (jsGet record "episode")) ∧
    (hasOwn (requestPayload rawBody) "kind" = false →
     hasOwn (requestPayload rawBody) "movie" = false →
     hasOwn (requestPayload rawBody) "episode" = false →
     validKindRelations (kindStr (jsGet record "kind"))
       (normalizeRelationValue (jsGet record "movie"))
       (normalizeRelationValue (jsGet record "episode")) →
     update (some uid) (some record) rawBody =
       .forwarded (withUserData (jsNullish rawBody (.obj []))
         (requestPayload rawBody) uid)) := by
  have hkind : hasOwn (requestPayload rawBody) "kind" = false →
      nextKindOf (requestPayload rawBody) record = kindStr (jsGet record "kind") := by
    intro h
    rw [nextKindOf, jsGet_undef_of_not_hasOwn _ _ h]
  have hmov : hasOwn (requestPayload rawBody) "movie" = false →
      nextMovieOf (requestPayload rawBody) record =
        normalizeRelationValue (jsGet record "movie") := by
    intro h
    simp [nextMovieOf, h]
  have heps : hasOwn (requestPayload rawBody) "episode" = false →
      nextEpisodeOf (requestPayload rawBody) record =
        normalizeRelationValue (jsGet record "episode") := by
    intro h
    simp [nextEpisodeOf, h]
  refine ⟨hkind, hmov, heps, fun h1 h2 h3 hv => ?_⟩
  have hred : update (some uid) (some record) rawBody =
      validateKindRelations (nextKindOf (requestPayload rawBody) record)
        (nextMovieOf (requestPayload rawBody) record)
        (nextEpisodeOf (requestPayload rawBody) record)
        (withUserData (jsNullish rawBody (.obj [])) (requestPayload rawBody) uid) := by
    simp [update, hown]
  rw [hred, hkind h1, hmov h2, heps h3]
  exact (validateKindRelations_spec _ _ _ _).2 hv

/-- C10 witness: an update carrying only positionSeconds on an owned
record with kind movie, movie set, episode empty is forwarded. -/
theorem C10_witness :
    update (some 1)
      (some (.obj [("user", .obj [("id", .num 1)]), ("kind", .str "movie"),
        ("movie", .obj [("id", .num 7)]), ("episode", .jnull)]))
      (.obj [("data", .obj [("positionSeconds", .num 42)])]) =
      .forwarded (.obj [("data", .obj [("positionSeconds", .num 42),
        ("user", .num 1)])]) := by
  have hnorm : normalizeRelationValue (jsGet (Json.obj [("user", .obj [("id", .num 1)]),
      ("kind", .str "movie"), ("movie", .obj [("id", .num 7)]),
      ("episode", .jnull)]) "user") = .num 1 := by
    simp [jsGet, getProp, normalizeRelationValue]
  have hown : isOwner (normalizeRelationValue (jsGet (Json.obj [("user",
      .obj [("id", .num 1)]), ("kind", .str "movie"), ("movie", .obj [("id", .num 7)]),
      ("episode", .jnull)]) "user")) 1 = true := by
    rw [hnorm]; decide
  have h := (C10_partial_update_merge 1
    (.obj [("user", .obj [("id", .num 1)]), ("kind", .str "movie"),
      ("movie", .obj [("id", .num 7)]), ("episode", .jnull)])
    (.obj [("data", .obj [("positionSeconds", .num 42)])]) hown).2.2.2
    (by decide) (by decide)
    (by decide) (by
      apply Or.inl
      refine ⟨?_, ?_, ?_⟩ <;>
        simp [jsGet, getProp, kindStr, normalizeRelationValue, hasRelation])
  simpa [requestPayload, jsNullish, jsGet, getProp, withUserData, spreadFields,
    upsert] using h


/-- C4: with a cached record id the update call is attempted first; a 404
clears the cached id and leads to exactly one create call carrying the
same payload; the id extracted from the create response (when present)
becomes the new cached record id and the 404 leaves no save-failure
message; update errors other than 404 do not fall through to create. -/
theorem C4_stale_id_recovery (rid : String) (payload : SavePayload)
    (msg : String) (cre : CreateOutcome) :
    ((performSave (some rid) payload (.strapiErr 404 msg) cre).updateCalls =
      [(rid, payload)] ∧
     (performSave (some rid) payload (.strapiErr 404 msg) cre).createCalls =
      [payload]) ∧
    (∀ response, cre = .ok response →
      (performSave (some rid) payload (.strapiErr 404 msg) cre).errorMsg = none ∧
      ∀ newId, ((toEntityArray response).head?).bind extractRecordId = some newId →
        (performSave (some rid) payload (.strapiErr 404 msg) cre).recordId =
          some newId) ∧
    (∀ status msg2, status ≠ 404 →
      (performSave (some rid) payload (.strapiErr status msg2) cre).createCalls = [] ∧
      (performSave (some rid) payload .unexpectedErr cre).createCalls = []) := by
  refine ⟨?_, ?_, ?_⟩
  · cases cre <;> simp [performSave, performCreate]
  · rintro response rfl
    constructor
    · simp [performSave, performCreate]
    · intro newId h
      simp [performSave, performCreate, h]
  · intro status msg2 hne
    constructor
    · simp [performSave, hne]
    · simp [performSave]

/-- C4 witness: cached id "9", update answers 404, create succeeds with a
response carrying id "rec-2"; one update, one create with the same
payload, no error message, and "rec-2" becomes the cached id; a 500 update
error issues no create. -/
theorem C4_witness :
    (performSave (some "9") ⟨"movie", some (.num 7), none, 40, some 120, false⟩
      (.strapiErr 404 "Not Found")
      (.ok (.obj [("data", .obj [("id", .str "rec-2")])]))).updateCalls =
      [("9", ⟨"movie", some (.num 7), none, 40, some 120, false⟩)] ∧
    (performSave (some "9") ⟨"movie", some (.num 7), none, 40, some 120, false⟩
      (.strapiErr 404 "Not Found")
      (.ok (.obj [("data", .obj [("id", .str "rec-2")])]))).createCalls =
      [⟨"movie", some (.num 7), none, 40, some 120, false⟩] ∧
    (performSave (some "9") ⟨"movie", some (.num 7), none, 40, some 120, false⟩
      (.strapiErr 404 "Not Found")
      (.ok (.obj [("data", .obj [("id", .str "rec-2")])]))).errorMsg = none ∧
    (performSave (some "9") ⟨"movie", some (.num 7), none, 40, some 120, false⟩
      (.strapiErr 404 "Not Found")
      (.ok (.obj [("data", .obj [("id", .str "rec-2")])]))).recordId = some "rec-2" ∧
    (performSave (some "9") ⟨"movie", some (.num 7), none, 40, some 120, false⟩
      (.strapiErr 500 "boom")
      (.ok (.obj [("data", .obj [("id", .str "rec-2")])]))).createCalls = [] := by
  obtain ⟨h1, h2, h3⟩ := C4_stale_id_recovery "9"
    ⟨"movie", some (.num 7), none, 40, some 120, false⟩ "Not Found"
    (.ok (.obj [("data", .obj [("id", .str "rec-2")])]))
  obtain ⟨h21, h22⟩ := h2 _ rfl
  exact ⟨h1.1, h1.2, h21, h22 "rec-2" (by decide), (h3 500 "boom" (by decide)).1⟩

/-- C9: any payload that a save decision writes carries
completed = completedOverride when an override is given, else
completed = (resolved duration is positive and position/duration is at
least 0.95). -/
theorem C9_completed_policy (force : Bool) (o : Option Bool) (ctx : SaveCtx)
    (st : SaveState) (p : SavePayload)
    (h : saveDecision force o ctx st = .write p) :
    p.completed = o.getD (completedByRatio ctx st) ∧
    (completedByRatio ctx st = true ↔ ∃ d, resolvedDuration ctx st = some d ∧
      0 < d ∧ (0.95 : ℚ) ≤ (resolvedPosition ctx st : ℚ) / (d : ℚ)) := by
  constructor
  · obtain ⟨tok, med, kin, vid, tnow⟩ := ctx
    cases tok <;> cases med <;> simp only [saveDecision] at h
    · exact absurd h (by simp)
    · exact absurd h (by simp)
    · exact absurd h (by simp)
    · split_ifs at h <;> try simp_all [completedFlag]
      subst h
      rfl
  · cases hd : resolvedDuration ctx st with
    | none => simp [completedByRatio, hd]
    | some d =>
      simp [completedByRatio, hd]

/-- C9 witness: duration 120, position 115, no override, non-forced save
with a playing player: the decision writes completed = true. -/
theorem C9_witness :
    saveDecision false none
      ⟨some "t", some (.num 7), true, some ⟨115, some 120, false⟩, 0⟩
      ⟨0, none, none, 0, 0, false⟩ =
      .write ⟨"movie", some (.num 7), none, 115, some 120, true⟩ ∧
    (⟨"movie", some (.num 7), none, 115, some 120, true⟩ : SavePayload).completed =
      Option.getD none (completedByRatio
        ⟨some "t", some (.num 7), true, some ⟨115, some 120, false⟩, 0⟩
        ⟨0, none, none, 0, 0, false⟩) := by
  have hpos : resolvedPosition
      ⟨some "t", some (.num 7), true, some ⟨115, some 120, false⟩, 0⟩
      ⟨0, none, none, 0, 0, false⟩ = 115 := by
    norm_num [resolvedPosition]
  have hdur : resolvedDuration
      ⟨some "t", some (.num 7), true, some ⟨115, some 120, false⟩, 0⟩
      ⟨0, none, none, 0, 0, false⟩ = some 120 := by
    norm_num [resolvedDuration]
  have hratio : completedByRatio
      ⟨some "t", some (.num 7), true, some ⟨115, some 120, false⟩, 0⟩
      ⟨0, none, none, 0, 0, false⟩ = true := by
    rw [completedByRatio, hdur, hpos]
    norm_num
  have hflag : completedFlag
      ⟨some "t", some (.num 7), true, some ⟨115, some 120, false⟩, 0⟩
      ⟨0, none, none, 0, 0, false⟩ none = true := by
    simp [completedFlag, hratio]
  have hmain : saveDecision false none
      ⟨some "t", some (.num 7), true, some ⟨115, some 120, false⟩, 0⟩
      ⟨0, none, none, 0, 0, false⟩ =
      .write ⟨"movie", some (.num 7), none, 115, some 120, true⟩ := by
    simp [saveDecision, hflag, hpos, hdur]
  exact ⟨hmain, ((C9_completed_policy false none _ _ _ hmain).1).trans (by simp [hratio])⟩

/-- C1 counterexample: non-forced save, player attached and playing,
completed = false, position delta 10 (threshold reached) but only 2
seconds elapsed since the last save: the claim says the write proceeds,
yet the code skips it. -/
theorem C1_counterexample :
    5 ≤ (((100 : Int) - 90).natAbs) ∧ ((10000 : Int) - 8000 < 7500) ∧
    saveDecision false none
      ⟨some "t", some (.num 1), true, some ⟨100, some 3600, false⟩, 10000⟩
      ⟨0, none, some "9", 8000, 90, false⟩ = .skip := by
  have hpos : resolvedPosition
      ⟨some "t", some (.num 1), true, some ⟨100, some 3600, false⟩, 10000⟩
      ⟨0, none, some "9", 8000, 90, false⟩ = 100 := by
    norm_num [resolvedPosition]
  have hdur : resolvedDuration
      ⟨some "t", some (.num 1), true, some ⟨100, some 3600, false⟩, 10000⟩
      ⟨0, none, some "9", 8000, 90, false⟩ = some 3600 := by
    norm_num [resolvedDuration]
  have hratio : completedByRatio
      ⟨some "t", some (.num 1), true, some ⟨100, some 3600, false⟩, 10000⟩
      ⟨0, none, some "9", 8000, 90, false⟩ = false := by
    rw [completedByRatio, hdur, hpos]
    norm_num
  have hflag : completedFlag
      ⟨some "t", some (.num 1), true, some ⟨100, some 3600, false⟩, 10000⟩
      ⟨0, none, some "9", 8000, 90, false⟩ none = false := by
    simp [completedFlag, hratio]
  refine ⟨by decide, by decide, ?_⟩
  simp [saveDecision, hflag, hpos]

/-- C1 amended: for a non-forced save with an attached, playing player,
completed resolving to false, the low-position creation gate passed, and
no save in flight, the write proceeds exactly when BOTH thresholds are
reached (position delta at least 5 seconds AND at least 7.5 seconds
elapsed); reaching either threshold alone still skips the save. -/
theorem C1_amended_dual_threshold (o : Option Bool) (ctx : SaveCtx)
    (st : SaveState) (tok : String) (relId : RelId) (v : Video)
    (htok : ctx.token = some tok) (hmed : ctx.media = some relId)
    (hkind : ctx.kindIsMovie = true) (hvid : ctx.video = some v)
    (hpaused : v.paused = false)
    (hcomp : completedFlag ctx st o = false)
    (hgate : 5 ≤ resolvedPosition ctx st ∨ st.progressRecordId ≠ none)
    (hflight : st.saveInFlight = false) :
    saveDecision false o ctx st =
      .write ⟨"movie", some relId, none, resolvedPosition ctx st,
        resolvedDuration ctx st, false⟩ ↔
    (5 ≤ (resolvedPosition ctx st - st.lastSavedPosition).natAbs ∧
     7500 ≤ ctx.now - st.lastSavedAt) := by
  obtain ⟨tok2, med2, kin2, vid2, tnow2⟩ := ctx
  simp only at htok hmed hkind hvid hcomp hgate ⊢
  subst htok hmed hkind hvid
  by_cases hD : ((resolvedPosition
      ⟨some tok, some relId, true, some v, tnow2⟩ st -
        st.lastSavedPosition).natAbs < 5 ∨
      tnow2 - st.lastSavedAt < 7500)
  · rcases hgate with hg | hg
    · have h2 : ¬ (resolvedPosition ⟨some tok, some relId, true, some v, tnow2⟩ st < 5) := by omega
      simp [saveDecision, hpaused, hcomp, hD, h2]
      omega
    · simp [saveDecision, hpaused, hcomp, hD, hg]
      omega
  · rcases hgate with hg | hg
    · have h2 : ¬ (resolvedPosition ⟨some tok, some relId, true, some v, tnow2⟩ st < 5) := by omega
      have h4 : ¬ (resolvedPosition ⟨some tok, some relId, true, some v, tnow2⟩ st ≤ 0) := by omega
      simp [saveDecision, hpaused, hcomp, hD, h2, h4, hflight]
      omega
    · simp [saveDecision, hpaused, hcomp, hD, hg, hflight]
      omega

/-- C1 amended witness: same state as the counterexample but with 12
seconds elapsed: both thresholds reached, the write proceeds. -/
theorem C1_amended_witness :
    saveDecision false none
      ⟨some "t", some (.num 1), true, some ⟨100, some 3600, false⟩, 20000⟩
      ⟨0, none, some "9", 8000, 90, false⟩ =
      .write ⟨"movie", some (.num 1), none, 100, some 3600, false⟩ := by
  have hpos : resolvedPosition
      ⟨some "t", some (.num 1), true, some ⟨100, some 3600, false⟩, 20000⟩
      ⟨0, none, some "9", 8000, 90, false⟩ = 100 := by
    norm_num [resolvedPosition]
  have hdur : resolvedDuration
      ⟨some "t", some (.num 1), true, some ⟨100, some 3600, false⟩, 20000⟩
      ⟨0, none, some "9", 8000, 90, false⟩ = some 3600 := by
    norm_num [resolvedDuration]
  have hratio : completedByRatio
      ⟨some "t", some (.num 1), true, some ⟨100, some 3600, false⟩, 20000⟩
      ⟨0, none, some "9", 8000, 90, false⟩ = false := by
    rw [completedByRatio, hdur, hpos]
    norm_num
  have hflag : completedFlag
      ⟨some "t", some (.num 1), true, some ⟨100, some 3600, false⟩, 20000⟩
      ⟨0, none, some "9", 8000, 90, false⟩ none = false := by
    simp [completedFlag, hratio]
  have h := (C1_amended_dual_threshold none
    ⟨some "t", some (.num 1), true, some ⟨100, some 3600, false⟩, 20000⟩
    ⟨0, none, some "9", 8000, 90, false⟩ "t" (.num 1)
    ⟨100, some 3600, false⟩ rfl rfl rfl rfl rfl hflag
    (Or.inl (by rw [hpos]; decide)) rfl).mpr
    ⟨by rw [hpos]; decide, by decide⟩
  rw [hpos, hdur] at h
  exact h


/-- C8: a resume point is eligible exactly when completed is false and the
stored position exceeds 30 seconds; when eligible and not already applied,
with a finite duration of at least 2 seconds, the player is sought to
min(storedPosition, duration - 1) (never into the last second), resume is
marked applied, and a second metadata event seeks nothing. -/
theorem C8_resume_policy :
    (∀ st : ResumeState, shouldResume st = true ↔
      (st.progressCompleted = false ∧ 30 < st.progressPosition)) ∧
    (∀ (st : ResumeState) (v : Video) (d : ℚ), v.duration = some d → 2 ≤ d →
      st.resumeApplied = false → shouldResume st = true →
      ((onLoadedMetadata (some v) st).seekedTo =
        some (min st.progressPosition (⌊d⌋ - 1)) ∧
       ((min st.progressPosition (⌊d⌋ - 1) : ℚ) ≤ d - 1) ∧
       (onLoadedMetadata (some v) st).state.resumeApplied = true ∧
       (∀ v2, (onLoadedMetadata (some v2)
         ((onLoadedMetadata (some v) st).state)).seekedTo = none))) := by
  have hiff : ∀ st : ResumeState, shouldResume st = true ↔
      (st.progressCompleted = false ∧ 30 < st.progressPosition) := by
    intro st
    simp [shouldResume]
  refine ⟨hiff, ?_⟩
  intro st v d hd h2 hra hsr
  obtain ⟨hc, hpos⟩ := (hiff st).mp hsr
  obtain ⟨pos, comp, durS, ra⟩ := st
  simp only at hc hpos hra
  subst hc hra
  have hd0 : (0:ℚ) < d := by linarith
  have hd1 : (1:ℚ) < d := by linarith
  have hfl : ⌊d - 1⌋ = ⌊d⌋ - 1 := by
    rw [show (1:ℚ) = ((1:Int):ℚ) from by norm_num, Int.floor_sub_int]
  have hfloor1 : 1 ≤ ⌊d⌋ - 1 := by
    have := Int.le_floor.mpr (show ((2:Int):ℚ) ≤ d from by exact_mod_cast h2)
    omega
  have hseekpos : 0 < min pos (⌊d⌋ - 1) := lt_min (by omega) (by omega)
  have hres : onLoadedMetadata (some v) ⟨pos, false, durS, false⟩ =
      ⟨⟨pos, false, some ⌊d⌋, true⟩, some (min pos (⌊d⌋ - 1)), true⟩ := by
    simp [onLoadedMetadata, hd, hd0, hd1, shouldResume, hpos, hfl, hseekpos]
  rw [hres]
  refine ⟨rfl, ?_, rfl, ?_⟩
  · have hminq : min ((pos : ℚ)) ((⌊d⌋ : ℚ) - 1) ≤ ((⌊d⌋ : ℚ) - 1) :=
      min_le_right _ _
    have hfle := Int.floor_le d
    push_cast
    linarith
  · intro v2
    cases hd2 : v2.duration with
    | none => simp [onLoadedMetadata, hd2]
    | some d2 =>
      by_cases h02 : 0 < d2 <;> simp [onLoadedMetadata, hd2, h02]

/-- C8 witness: position 40 with completed=false is eligible, position 20
is not (for either completed value); with duration 3600 the player is
sought to 40, resume is marked applied, and a second metadata event does
not seek again. -/
theorem C8_witness :
    shouldResume ⟨40, false, none, false⟩ = true ∧
    shouldResume ⟨20, false, none, false⟩ = false ∧
    shouldResume ⟨20, true, none, false⟩ = false ∧
    (onLoadedMetadata (some ⟨0, some 3600, false⟩)
      ⟨40, false, none, false⟩).seekedTo = some 40 ∧
    (onLoadedMetadata (some ⟨0, some 3600, false⟩)
      ⟨40, false, none, false⟩).state.resumeApplied = true ∧
    (onLoadedMetadata (some ⟨0, some 3600, false⟩)
      ((onLoadedMetadata (some ⟨0, some 3600, false⟩)
        ⟨40, false, none, false⟩).state)).seekedTo = none := by
  obtain ⟨hiff, hmain⟩ := C8_resume_policy
  have helig : shouldResume ⟨40, false, none, false⟩ = true :=
    (hiff ⟨40, false, none, false⟩).mpr ⟨rfl, by decide⟩
  have h := hmain ⟨40, false, none, false⟩ ⟨0, some 3600, false⟩ 3600 rfl
    (by norm_num) rfl helig
  obtain ⟨hs, _, hra, honce⟩ := h
  have h20a : shouldResume ⟨20, false, none, false⟩ = false := by
    cases hb : shouldResume ⟨20, false, none, false⟩ with
    | false => rfl
    | true => exact absurd ((hiff ⟨20, false, none, false⟩).mp hb).2 (by decide)
  have h20b : shouldResume ⟨20, true, none, false⟩ = false := by
    cases hb : shouldResume ⟨20, true, none, false⟩ with
    | false => rfl
    | true => exact absurd ((hiff ⟨20, true, none, false⟩).mp hb).1 (by decide)
  rw [show ⌊(3600:ℚ)⌋ = 3600 from by norm_num] at hs
  norm_num at hs
  exact ⟨helig, h20a, h20b, hs, hra, honce _⟩

end StreamKo
